import Mathlib

/- Verification development for the finops-platform repository.

   The summarization core (`analyst/summarize.py`), the EDGAR section
   extraction heuristic (`analyst/edgar.py`) and the report rendering glue
   (`analyst/report.py`, `platform_core/report_template.py`) are embedded
   shallowly as Lean functions over `String` / `List Char`.

   The numeric TF-IDF weights computed by scikit-learn's `TfidfVectorizer`
   are floating-point values produced by an external library; they are
   abstracted behind a backend parameter (`TfidfBackend`) whose observable
   contract (`GoodBackend`) captures exactly what the library documents and
   what `top_sentences_tfidf` relies on: the `empty vocabulary` `ValueError`
   raised when tokenization plus stop-word filtering leaves no terms, and a
   score vector with one entry per input sentence otherwise. The
   tokenization, the stop-word list and the vocabulary-emptiness condition
   themselves are embedded concretely. -/

namespace FinOps

/-- Whitespace as matched by Python's `\s` / `str.strip` / `str.split` on
`str` input: the ASCII whitespace and separator control characters plus the
Unicode space characters. -/
def isPySpace (c : Char) : Bool :=
  c == ' ' || c == '\t' || c == '\n' || c == '\r' || c == '\x0b' || c == '\x0c' ||
  c == '\x1c' || c == '\x1d' || c == '\x1e' || c == '\x1f' || c == '\x85' ||
  c == '\xa0' || c == '\u1680' || c == '\u2000' || c == '\u2001' || c == '\u2002' ||
  c == '\u2003' || c == '\u2004' || c == '\u2005' || c == '\u2006' || c == '\u2007' ||
  c == '\u2008' || c == '\u2009' || c == '\u200a' || c == '\u2028' || c == '\u2029' ||
  c == '\u202f' || c == '\u205f' || c == '\u3000'

/-- Decidable equality for `Except`, so that concrete runs of the embedded
functions can be checked by `decide`. -/
instance {α β : Type} [DecidableEq α] [DecidableEq β] : DecidableEq (Except α β) := fun x y =>
  match x, y with
  | .ok a, .ok b => if h : a = b then isTrue (by rw [h]) else isFalse (by simp [h])
  | .error a, .error b => if h : a = b then isTrue (by rw [h]) else isFalse (by simp [h])
  | .ok _, .error _ => isFalse (by simp)
  | .error _, .ok _ => isFalse (by simp)

/-- Sentence-final punctuation of the `_SENT_SPLIT` regex `(?<=[.!?])\s+`
in `analyst/summarize.py`. -/
def isSentPunct (c : Char) : Bool :=
  c == '.' || c == '!' || c == '?'

/-- Word characters of the regex class `\w` (ASCII range), used by
scikit-learn's default `token_pattern` `\b\w\w+\b`. -/
def isWordChar (c : Char) : Bool :=
  c.isAlphanum || c == '_'

/-- Python `str.strip()` on a character list: drop whitespace from both ends. -/
def pyStripChars (l : List Char) : List Char :=
  ((l.dropWhile isPySpace).reverse.dropWhile isPySpace).reverse

/-- Python `str.strip()`. -/
def pyStrip (s : String) : String :=
  ⟨pyStripChars s.data⟩

/-- Locate the first match of the delimiter regex `(?<=[.!?])\s+`: scan for
the first position where a `[.!?]` character is immediately followed by a
whitespace character, and return the fragment before the whitespace
together with the remainder after the (greedily consumed, maximal)
whitespace run. `none` when the regex does not match. -/
def firstSplit : List Char → Option (List Char × List Char)
  | [] => none
  | [_] => none
  | a :: b :: cs =>
    if isSentPunct a && isPySpace b then
      some ([a], (b :: cs).dropWhile isPySpace)
    else
      match firstSplit (b :: cs) with
      | none => none
      | some (f, r) => some (a :: f, r)

/-- Fuelled iteration of `firstSplit`. Every match consumes at least two
characters of the input, so any fuel of at least the input length makes the
fuel bound irrelevant (`reSplitFuel_ge` below). -/
def reSplitFuel : Nat → List Char → List (List Char)
  | 0, cs => [cs]
  | fuel + 1, cs =>
    match firstSplit cs with
    | none => [cs]
    | some (f, r) => f :: reSplitFuel fuel r

/-- Model of `re.split(r"(?<=[.!?])\s+", text)`: the list of fragments
between successive delimiter matches (`re.split` yields one more fragment
than there are matches, so the result is never empty). -/
def reSplitSent (cs : List Char) : List (List Char) :=
  reSplitFuel cs.length cs

/-- Adjacent boundary test: whether the delimiter regex `(?<=[.!?])\s+`
matches anywhere inside the fragment, i.e. whether some `[.!?]` character is
immediately followed by a whitespace character. -/
def hasBnd : List Char → Bool
  | a :: b :: cs => (isSentPunct a && isPySpace b) || hasBnd (b :: cs)
  | _ => false

/-- The decomposition a correct `re.split` on `(?<=[.!?])\s+` produces:
the text is the fragments interleaved with non-empty whitespace runs, every
delimiter run is preceded by a `[.!?]` character ending the fragment before
it and is maximal (the remainder does not start with whitespace), and no
boundary occurs inside any fragment. -/
inductive SplitsInto : List Char → List (List Char) → Prop where
  | last : ∀ {f : List Char}, hasBnd f = false → SplitsInto f [f]
  | step : ∀ {f d r : List Char} {fs : List (List Char)},
      d ≠ [] → (∀ c ∈ d, isPySpace c = true) →
      (∃ a, f.getLast? = some a ∧ isSentPunct a = true) →
      hasBnd f = false →
      (∀ c, r.head? = some c → isPySpace c = false) →
      SplitsInto r fs →
      SplitsInto (f ++ d ++ r) (f :: fs)

/-- Model of line 31 of `analyst/summarize.py`:
`[s.strip() for s in _SENT_SPLIT.split(text) if s.strip()]`
(strip every fragment, discard the ones that are empty after stripping). -/
def splitSentencesChars (cs : List Char) : List (List Char) :=
  ((reSplitSent cs).map pyStripChars).filter (fun l => !l.isEmpty)

/-- The sentence splitter, at `String` level. -/
def splitSentences (s : String) : List String :=
  (splitSentencesChars s.data).map (fun l => ⟨l⟩)

/-- Maximal runs of characters satisfying `p` (helper for the tokenizer and
for Python's `str.split()`); `cur` holds the current run, reversed. -/
def runsAux (p : Char → Bool) : List Char → List Char → List (List Char)
  | cur, [] => if cur.isEmpty then [] else [cur.reverse]
  | cur, c :: cs =>
    if p c then runsAux p (c :: cur) cs
    else if cur.isEmpty then runsAux p [] cs
    else cur.reverse :: runsAux p [] cs

/-- Maximal runs of characters satisfying `p`. -/
def runsOf (p : Char → Bool) (cs : List Char) : List (List Char) :=
  runsAux p [] cs

/-- Model of scikit-learn's default analyzer on one document: lowercase,
then extract the tokens matched by `token_pattern` `(?u)\b\w\w+\b`, i.e. the
maximal runs of word characters that are at least two characters long. -/
def tokensOf (s : String) : List String :=
  ((runsOf isWordChar (s.data.map Char.toLower)).filter (fun t => 2 ≤ t.length)).map
    (fun l => ⟨l⟩)

/-- Python `str.split()` (no argument): whitespace-separated words, empty
strings discarded. -/
def pySplitWs (s : String) : List String :=
  (runsOf (fun c => !isPySpace c) s.data).map (fun l => ⟨l⟩)

/-- The normalization `" ".join(text.split())` used on heading and section
text in `analyst/edgar.py`. -/
def normWs (s : String) : String :=
  String.intercalate " " (pySplitWs s)

/-- Python `str.upper()` (ASCII range). -/
def pyUpper (s : String) : String :=
  ⟨s.data.map Char.toUpper⟩

/-- Modelled from scikit-learn's `ENGLISH_STOP_WORDS` frozenset
(`sklearn/feature_extraction/_stop_words.py`), the stop-word list selected
by `TfidfVectorizer(stop_words="english")`. -/
def ENGLISH_STOP_WORDS : List String :=
  ["a", "about", "above", "across", "after", "afterwards", "again", "against",
   "all", "almost", "alone", "along", "already", "also", "although", "always",
   "am", "among", "amongst", "amoungst", "amount", "an", "and", "another",
   "any", "anyhow", "anyone", "anything", "anyway", "anywhere", "are",
   "around", "as", "at", "back", "be", "became", "because", "become",
   "becomes", "becoming", "been", "before", "beforehand", "behind", "being",
   "below", "beside", "besides", "between", "beyond", "bill", "both",
   "bottom", "but", "by", "call", "can", "cannot", "cant", "co", "con",
   "could", "couldnt", "cry", "de", "describe", "detail", "do", "done",
   "down", "due", "during", "each", "eg", "eight", "either", "eleven",
   "else", "elsewhere", "empty", "enough", "etc", "even", "ever", "every",
   "everyone", "everything", "everywhere", "except", "few", "fifteen",
   "fifty", "fill", "find", "fire", "first", "five", "for", "former",
   "formerly", "forty", "found", "four", "from", "front", "full", "further",
   "get", "give", "go", "had", "has", "hasnt", "have", "he", "hence", "her",
   "here", "hereafter", "hereby", "herein", "hereupon", "hers", "herself",
   "him", "himself", "his", "how", "however", "hundred", "i", "ie", "if",
   "in", "inc", "indeed", "interest", "into", "is", "it", "its", "itself",
   "keep", "last", "latter", "latterly", "least", "less", "ltd", "made",
   "many", "may", "me", "meanwhile", "might", "mill", "mine", "more",
   "moreover", "most", "mostly", "move", "much", "must", "my", "myself",
   "name", "namely", "neither", "never", "nevertheless", "next", "nine",
   "no", "nobody", "none", "noone", "nor", "not", "nothing", "now",
   "nowhere", "of", "off", "often", "on", "once", "one", "only", "onto",
   "or", "other", "others", "otherwise", "our", "ours", "ourselves", "out",
   "over", "own", "part", "per", "perhaps", "please", "put", "rather", "re",
   "same", "see", "seem", "seemed", "seeming", "seems", "serious", "several",
   "she", "should", "show", "side", "since", "sincere", "six", "sixty",
   "so", "some", "somehow", "someone", "something", "sometime", "sometimes",
   "somewhere", "still", "such", "system", "take", "ten", "than", "that",
   "the", "their", "them", "themselves", "then", "thence", "there",
   "thereafter", "thereby", "therefore", "therein", "thereupon", "these",
   "they", "thick", "thin", "third", "this", "those", "though", "three",
   "through", "throughout", "thru", "thus", "to", "together", "too", "top",
   "toward", "towards", "twelve", "twenty", "two", "un", "under", "until",
   "up", "upon", "us", "very", "via", "was", "we", "well", "were", "what",
   "whatever", "when", "whence", "whenever", "where", "whereafter",
   "whereas", "whereby", "wherein", "whereupon", "wherever", "whether",
   "which", "while", "whither", "who", "whoever", "whole", "whom", "whose",
   "why", "will", "with", "within", "without", "would", "yet", "you",
   "your", "yours", "yourself", "yourselves"]

/-- The vocabulary-emptiness condition of `CountVectorizer.fit_transform`:
after tokenizing every document and (when `useStop` is set) removing the
English stop words, no term remains. This is exactly the condition under
which scikit-learn raises `ValueError("empty vocabulary; perhaps the
documents only contain stop words")`. -/
def vocabularyEmpty (useStop : Bool) (docs : List String) : Bool :=
  ((docs.map tokensOf).flatten.filter
    (fun t => !(useStop && ENGLISH_STOP_WORDS.contains t))).isEmpty

/-- The message of the scikit-learn empty-vocabulary `ValueError`. -/
def EMPTY_VOCAB_MSG : String :=
  "empty vocabulary; perhaps the documents only contain stop words"

/-- Substring test on character lists (Python's `in` on strings). -/
def containsAux (needle : List Char) : List Char → Bool
  | [] => needle.isEmpty
  | c :: cs => needle.isPrefixOf (c :: cs) || containsAux needle cs

/-- Python's `needle in hay` on strings. -/
def strContains (hay needle : String) : Bool :=
  containsAux needle.data hay.data

/-- Backend abstraction of the scikit-learn/numpy numerics used by
`top_sentences_tfidf`:
`score b docs` models `np.asarray(TfidfVectorizer(...).fit_transform(docs)
.sum(axis=1)).ravel()` with (`b = true`) or without (`b = false`) English
stop-word removal, returning either the per-sentence score vector or the
message of the raised `ValueError`;
`argsortDesc scores` models `np.argsort(-scores)`, the sentence indices
ordered by descending score. The actual floating-point weights are library
internals; everything the surrounding code observes is stated in
`GoodBackend`. -/
structure TfidfBackend where
  score : Bool → List String → Except String (List ℚ)
  argsortDesc : List ℚ → List Nat

/-- The documented behavior of the scikit-learn/numpy calls on in-memory
text input: `fit_transform` raises the empty-vocabulary `ValueError` exactly
when `vocabularyEmpty` holds and otherwise yields one score per document,
and `np.argsort(-scores)` returns a permutation of `0, ..., n-1` along
which the scores are non-increasing. -/
structure GoodBackend (B : TfidfBackend) : Prop where
  score_empty : ∀ b docs, vocabularyEmpty b docs = true →
    B.score b docs = .error EMPTY_VOCAB_MSG
  score_ok : ∀ b docs, vocabularyEmpty b docs = false →
    ∃ v, B.score b docs = .ok v ∧ v.length = docs.length
  argsort_perm : ∀ v : List ℚ, List.Perm (B.argsortDesc v) (List.range v.length)
  argsort_sorted : ∀ v : List ℚ,
    (B.argsortDesc v).Pairwise (fun i j => v.getD j 0 ≤ v.getD i 0)

/-- Python slice `l[:k]` for an arbitrary (possibly negative) `k`. -/
def pySlice (k : Int) (l : List α) : List α :=
  if 0 ≤ k then l.take k.toNat else l.take ((l.length : Int) + k).toNat

/-- Lines 52-57 of `analyst/summarize.py`: take the first `k` entries of
`np.argsort(-scores)` as the kept index set and return the sentences whose
index is kept, in original order
(`[s for i, s in enumerate(sentences) if i in keep]`). -/
def selectTopK (B : TfidfBackend) (sentences : List String) (scores : List ℚ)
    (k : Int) : List String :=
  let keep := pySlice k (B.argsortDesc scores)
  (sentences.enum.filter (fun p => keep.contains p.1)).map Prod.snd

/-- Shallow embedding of `top_sentences_tfidf` (`analyst/summarize.py`):
strip the text, return `[]` if nothing remains, split into sentences,
return them all unranked if there are at most `k`, otherwise score with
English stop words, retrying without stop words when the error message
contains `"empty vocabulary"`, and select the top-`k` sentences in original
order. A raised exception is modelled as `Except.error` with the exception
message. -/
def top_sentences_tfidf (B : TfidfBackend) (text : String) (k : Int) :
    Except String (List String) :=
  if (pyStrip text).data.isEmpty then .ok []
  else if ((splitSentences (pyStrip text)).length : Int) ≤ k then
    .ok (splitSentences (pyStrip text))
  else
    match B.score true (splitSentences (pyStrip text)) with
    | .ok scores => .ok (selectTopK B (splitSentences (pyStrip text)) scores k)
    | .error e =>
      if strContains e "empty vocabulary" then
        match B.score false (splitSentences (pyStrip text)) with
        | .ok scores => .ok (selectTopK B (splitSentences (pyStrip text)) scores k)
        | .error e2 => .error e2
      else .error e

/-- Stable descending argsort (insertion sort on index/score pairs); one
concrete function satisfying the `GoodBackend` argsort contract, used to
instantiate witnesses. -/
def stableArgsortDesc (v : List ℚ) : List Nat :=
  (v.enum.insertionSort (fun a b => b.2 ≤ a.2)).map Prod.fst

/-- A concrete well-behaved backend: fails exactly on the empty-vocabulary
condition and otherwise produces a constant score vector of the right
length, with the stable descending argsort. -/
def sampleBackend : TfidfBackend where
  score := fun b docs =>
    if vocabularyEmpty b docs then .error EMPTY_VOCAB_MSG
    else .ok (docs.map (fun _ => (1 : ℚ)))
  argsortDesc := stableArgsortDesc

/-- A backend whose scoring fails with an error other than the
empty-vocabulary condition, modelling "any other scoring failure" of the
error-handling design. -/
def badBackend : TfidfBackend where
  score := fun _ _ => .error "array must not contain infs or NaNs"
  argsortDesc := stableArgsortDesc

/-- Model of the parsed HTML as seen by `extract_section_texts`
(`analyst/edgar.py`): the sequence of sibling nodes scanned by the
extractor, each carrying the string its `get_text(" ", strip=True)` call
returns. In the documents this heuristic targets, the `h1`..`h6` headings
found by `find_all` and the content collected from `next_siblings` live in
one sibling sequence, so the tree traversal collapses to this list. -/
inductive HtmlNode where
  | heading (level : Nat) (text : String)
  | textNode (text : String)
deriving DecidableEq

/-- Text of a node, as produced by `get_text(" ", strip=True)` (for tags)
or `str(sib)` (for strings). -/
def nodeText : HtmlNode → String
  | .heading _ t => t
  | .textNode t => t

/-- Membership of the tag name in `{"h1", ..., "h6"}`. -/
def isHeading : HtmlNode → Bool
  | .heading _ _ => true
  | .textNode _ => false

/-- Heading level (the digit of `h1`..`h6`). -/
def headingLevel : HtmlNode → Nat
  | .heading lv _ => lv
  | .textNode _ => 0

/-- Whether a node is a heading whose text satisfies `p`. -/
def matchesHeading (p : String → Bool) : HtmlNode → Bool
  | .heading _ t => p t
  | .textNode _ => false

/-- Marker test for the MD&A section: the code uppercases the
whitespace-normalized heading text and requires both `"ITEM 7"` and
`"MANAGEMENT"` to occur in it. -/
def mdnaPred (t : String) : Bool :=
  strContains (pyUpper (normWs t)) "ITEM 7" && strContains (pyUpper (normWs t)) "MANAGEMENT"

/-- Marker test for the Risk Factors section: both `"ITEM 1A"` and
`"RISK"` must occur in the uppercased normalized heading text. -/
def riskPred (t : String) : Bool :=
  strContains (pyUpper (normWs t)) "ITEM 1A" && strContains (pyUpper (normWs t)) "RISK"

/-- Index of the first element satisfying `p`. -/
def findFirstIdx (p : α → Bool) : List α → Option Nat
  | [] => none
  | a :: l => if p a then some 0 else (findFirstIdx p l).map (· + 1)

/-- Index of the first heading whose text satisfies `p` (the
`mdna_start = tag if mdna_start is None else mdna_start` loop keeps the
first match in document order). -/
def findFirstHeading (nodes : List HtmlNode) (p : String → Bool) : Option Nat :=
  findFirstIdx (matchesHeading p) nodes

/-- Model of `_collect_until_next_heading` (`analyst/edgar.py`): given the
start heading's position, walk the following siblings, stop at the first
node whose tag name is in `{"h1", ..., "h6"}` (any level), append each
visited sibling's text, join with spaces and whitespace-normalize
(`" ".join(" ".join(parts).split())`); `""` when the start tag is `None`. -/
def collectUntilNextHeading (nodes : List HtmlNode) : Option Nat → String
  | none => ""
  | some i =>
    normWs (String.intercalate " "
      (((nodes.drop (i + 1)).takeWhile (fun n => !isHeading n)).map nodeText))

/-- Model of `extract_section_texts` (`analyst/edgar.py`): the values of
the returned dict under the keys `'mdna'` and `'risk'`, in that order. -/
def extract_section_texts (nodes : List HtmlNode) : String × String :=
  (collectUntilNextHeading nodes (findFirstHeading nodes mdnaPred),
   collectUntilNextHeading nodes (findFirstHeading nodes riskPred))

/-- Modelled from the spec: section collection that stops only at the next
heading "of the same or higher level" as the section's start heading
(smaller or equal level number), rather than at any heading. Used solely to
compare the spec's wording with the implementation's
`collectUntilNextHeading`. -/
def extractKeySameOrHigher (p : String → Bool) (nodes : List HtmlNode) : String :=
  match nodes.enum.find? (fun q => matchesHeading p q.2) with
  | none => ""
  | some (i, n) =>
    normWs (String.intercalate " "
      (((nodes.drop (i + 1)).takeWhile
          (fun m => !(isHeading m && headingLevel m ≤ headingLevel n))).map nodeText))

/-- The filing metadata record assembled by `latest_filing_meta`
(`analyst/edgar.py`), with the fields `render_report` reads. -/
structure FilingMeta where
  ticker : String
  cik : String
  form : String
  filingDate : String
  reportDate : String
  accessionNumber : String
  primaryDocument : String
  filingDetailUrl : String
deriving DecidableEq

/-- Python `str.capitalize()`: first character uppercased, the rest
lowercased. -/
def pyCapitalize (s : String) : String :=
  match s.data with
  | [] => ""
  | c :: cs => ⟨Char.toUpper c :: cs.map Char.toLower⟩

/-- A file written by `render_page`: the path components
`base_path / module_slug / "docs" / "index.html"` and the HTML content. -/
structure PageWrite where
  pathParts : List String
  content : String
deriving DecidableEq

/-- The HTML page template f-string of `render_page`
(`platform_core/report_template.py`); `now` stands for
`datetime.now(timezone.utc).strftime("%Y-%m-%d %H:%M UTC")`. -/
def pageHtml (page_title nav body_html now : String) : String :=
  "<!doctype html>\n<html lang=\"en\">\n<head>\n  <meta charset=\"utf-8\" />\n  <title>" ++
  page_title ++
  " · FinOps Platform</title>\n  <meta name=\"viewport\" content=\"width=device-width, initial-scale=1\" />\n  <style>\n    :root \x7b --bg:#fff; --fg:#111; --muted:#666; --border:#eee; --link:#0b5bd3; \x7d\n    * \x7b box-sizing: border-box; \x7d\n    body \x7b background:var(--bg); color:var(--fg); font-family: system-ui, Arial, sans-serif; margin: 2rem; line-height:1.5; \x7d\n    header, footer \x7b color:var(--muted); \x7d\n    a \x7b color:var(--link); text-decoration:none; \x7d\n    a:hover \x7b text-decoration:underline; \x7d\n    .card \x7b border:1px solid var(--border); border-radius:12px; padding:1rem; box-shadow:0 1px 2px rgba(0,0,0,.04); \x7d\n    table \x7b border-collapse: collapse; width:100%; \x7d\n    td, th \x7b border: 1px solid var(--border); padding: .6rem .8rem; text-align:left; \x7d\n    .kpi \x7b display:flex; gap:1rem; flex-wrap:wrap; \x7d\n    .kpi > div \x7b border:1px solid var(--border); border-radius:10px; padding:.6rem .8rem; min-width: 160px; \x7d\n  </style>\n</head>\n<body>\n  <header>\n    <h1>FinOps Platform</h1>\n    " ++
  nav ++
  "\n  </header>\n\n  <main class=\"card\">\n    " ++
  body_html ++
  "\n  </main>\n\n  <footer>\n    <p style=\"margin-top:1rem;\">Last updated: " ++
  now ++
  "</p>\n  </footer>\n</body>\n</html>"

/-- Shallow embedding of `render_page` (`platform_core/report_template.py`):
builds the nav links, assembles the page and writes it to
`<base_path>/<module_slug>/docs/index.html`. The returned pair is the file
written (the side effect) together with the function's Python return value;
the function body has no `return` statement, so that value is `None`. -/
def render_page (module_slug page_title body_html : String)
    (nav_modules : List String) (base_path : String) (now : String) :
    PageWrite × Option String :=
  let nav_links := String.intercalate " | "
    (nav_modules.map (fun m => "<a href=\"../" ++ m ++ "/\">" ++ pyCapitalize m ++ "</a>"))
  let nav := "<nav style=\"margin-bottom:1rem;\"><a href=\"../\">Home</a> | " ++ nav_links ++ "</nav>"
  (⟨[base_path, module_slug, "docs", "index.html"],
    pageHtml page_title nav body_html now⟩, none)

/-- The `_fmt_list` helper of `render_report` (`analyst/report.py`). -/
def fmtList (items : List String) : String :=
  if items.isEmpty then "<em>No highlights found.</em>"
  else "<ul>" ++ String.join (items.map (fun s => "<li>" ++ s ++ "</li>")) ++ "</ul>"

/-- Shallow embedding of `render_report` (`analyst/report.py`). The results
of the external calls are passed in: `meta` is what `latest_filing_meta`
returned, `local_path` and `doc` are the cached-file path and the parsed
HTML from `download_latest_primary_document_html`; `now` feeds the
template's timestamp. Exceptions propagate as `Except.error`: the function
installs no handler around `top_sentences_tfidf`. -/
def render_report (B : TfidfBackend) (now ticker : String)
    (meta : Option FilingMeta) (local_path : String) (doc : List HtmlNode) :
    Except String (PageWrite × Option String) :=
  match meta with
  | none =>
    let body := "\n          <h2>Analyst Module</h2>\n          <p>Could not find SEC filings for <strong>" ++
      pyUpper ticker ++ "</strong>.</p>\n        "
    .ok (render_page "analyst" ("Analyst Report · " ++ pyUpper ticker) body
      ["analyst", "trader"] "." now)
  | some m =>
    let sections := extract_section_texts doc
    match top_sentences_tfidf B sections.1 3 with
    | .error e => .error e
    | .ok mdna_top =>
      match top_sentences_tfidf B sections.2 3 with
      | .error e => .error e
      | .ok risk_top =>
        let body := "\n      <h2>Analyst · " ++ m.ticker ++
          "</h2>\n      <div class=\"kpi\">\n        <div><strong>Form:</strong> " ++ m.form ++
          "</div>\n        <div><strong>Filing Date:</strong> " ++ m.filingDate ++
          "</div>\n        <div><strong>Report Date:</strong> " ++ m.reportDate ++
          "</div>\n        <div><strong>Accession:</strong> " ++ m.accessionNumber ++
          "</div>\n      </div>\n      <p style=\"margin-top:1rem;\">\n        <a href=\"" ++ m.filingDetailUrl ++
          "\" target=\"_blank\" rel=\"noopener\">View filing on SEC</a>\n      </p>\n\n      <h3 style=\"margin-top:1.25rem;\">MD&amp;A — Highlights</h3>\n      " ++
          fmtList mdna_top ++
          "\n\n      <h3 style=\"margin-top:1.25rem;\">Risk Factors — Highlights</h3>\n      " ++
          fmtList risk_top ++
          "\n\n      <details style=\"margin-top:1rem;\">\n        <summary>Local cache</summary>\n        <p>Saved primary document: <code>" ++
          local_path ++ "</code></p>\n      </details>\n    "
        .ok (render_page "analyst" ("Analyst Report · " ++ pyUpper ticker) body
          ["analyst", "trader"] "." now)

/-- Heads surviving `dropWhile` fail the predicate. -/
theorem dropWhile_head_not (p : Char → Bool) :
    ∀ (l : List Char) {c : Char}, (l.dropWhile p).head? = some c → p c = false := by
  intro l
  induction l with
  | nil => intro c h; simp [List.dropWhile] at h
  | cons a as ih =>
    intro c h
    by_cases hp : p a
    · rw [List.dropWhile_cons_of_pos hp] at h
      exact ih h
    · rw [List.dropWhile_cons_of_neg hp] at h
      simp at h
      subst h
      exact Bool.eq_false_iff.mpr hp

/-- When the delimiter regex does not match, no boundary exists. -/
theorem firstSplit_none_hasBnd : ∀ {cs : List Char}, firstSplit cs = none → hasBnd cs = false := by
  intro cs
  induction cs with
  | nil => intro _; rfl
  | cons a tail ih =>
    cases tail with
    | nil => intro _; rfl
    | cons b cs =>
      intro h
      rw [firstSplit] at h
      by_cases hc : (isSentPunct a && isPySpace b) = true
      · simp [hc] at h
      · rw [if_neg hc] at h
        rw [hasBnd, Bool.eq_false_iff.mpr hc, Bool.false_or]
        cases hfs : firstSplit (b :: cs) with
        | none => exact ih hfs
        | some pr => rw [hfs] at h; cases pr; simp at h

/-- Structure of the first delimiter match: the fragment starts where the
input starts, contains no boundary, ends in sentence punctuation, and is
followed by a non-empty maximal whitespace run and the strictly shorter
remainder. -/
theorem firstSplit_some_struct :
    ∀ {cs f r : List Char}, firstSplit cs = some (f, r) →
      f.head? = cs.head? ∧ hasBnd f = false ∧
      (∃ a, f.getLast? = some a ∧ isSentPunct a = true) ∧
      (∀ c, r.head? = some c → isPySpace c = false) ∧
      ∃ d, d ≠ [] ∧ (∀ c ∈ d, isPySpace c = true) ∧ cs = f ++ d ++ r ∧
        r.length < cs.length := by
  intro cs
  induction cs with
  | nil => intro f r h; simp [firstSplit] at h
  | cons a tail ih =>
    cases tail with
    | nil => intro f r h; simp [firstSplit] at h
    | cons b cs =>
      intro f r h
      rw [firstSplit] at h
      by_cases hc : (isSentPunct a && isPySpace b) = true
      · rw [if_pos hc] at h
        have hc2 : isSentPunct a = true ∧ isPySpace b = true := by simpa using hc
        obtain ⟨ha, hb⟩ := hc2
        injection h with h
        injection h with hf hr
        subst hf
        subst hr
        refine ⟨rfl, rfl, ⟨a, rfl, ha⟩, ?_, ?_⟩
        · intro c hch
          exact dropWhile_head_not isPySpace _ hch
        · refine ⟨(b :: cs).takeWhile isPySpace, ?_, ?_, ?_, ?_⟩
          · rw [List.takeWhile_cons_of_pos hb]
            simp
          · intro c hcm
            exact List.mem_takeWhile_imp hcm
          · have := List.takeWhile_append_dropWhile (p := isPySpace) (l := b :: cs)
            simp only [List.cons_append, List.nil_append, List.singleton_append]
            rw [this]
          · have h1 : ((b :: cs).dropWhile isPySpace).length ≤ (b :: cs).length :=
              (List.dropWhile_suffix isPySpace).sublist.length_le
            simp only [List.length_cons] at h1 ⊢
            omega
      · rw [if_neg hc] at h
        cases hfs : firstSplit (b :: cs) with
        | none => rw [hfs] at h; simp at h
        | some pr =>
          rw [hfs] at h
          obtain ⟨f', r'⟩ := pr
          injection h with h
          injection h with hf hr
          subst hf
          subst hr
          obtain ⟨ihh, ihb, ihl, ihr, d, hd, hdsp, hdeq, hdlt⟩ := ih hfs
          obtain ⟨x, hx, hxp⟩ := ihl
          have hf'ne : f' ≠ [] := by
            intro hnil
            rw [hnil] at hx
            simp at hx
          refine ⟨rfl, ?_, ?_, ihr, d, hd, hdsp, ?_, ?_⟩
          · cases f' with
            | nil => exact absurd rfl hf'ne
            | cons y ys =>
              have hy : y = b := by
                simp at ihh
                exact ihh
              subst hy
              rw [hasBnd, Bool.eq_false_iff.mpr hc, Bool.false_or]
              exact ihb
          · refine ⟨x, ?_, hxp⟩
            have : (a :: f').getLast? = ([a] ++ f').getLast? := by simp
            rw [this, List.getLast?_append_of_ne_nil [a] hf'ne]
            exact hx
          · rw [hdeq]
            simp
          · simp only [List.length_cons] at hdlt ⊢
            omega

/-- The fuelled splitter satisfies the decomposition as soon as the fuel
covers the input length. -/
theorem splitsInto_reSplitFuel :
    ∀ (fuel : Nat) (cs : List Char), cs.length ≤ fuel → SplitsInto cs (reSplitFuel fuel cs) := by
  intro fuel
  induction fuel with
  | zero =>
    intro cs h
    have hnil : cs = [] := List.eq_nil_of_length_eq_zero (Nat.le_zero.mp h)
    subst hnil
    exact SplitsInto.last rfl
  | succ n ih =>
    intro cs h
    rw [reSplitFuel]
    cases hfs : firstSplit cs with
    | none => exact SplitsInto.last (firstSplit_none_hasBnd hfs)
    | some pr =>
      obtain ⟨f, r⟩ := pr
      obtain ⟨_, hb, hl, hr, d, hd, hdsp, hdeq, hdlt⟩ := firstSplit_some_struct hfs
      have hrec : SplitsInto r (reSplitFuel n r) := by
        apply ih
        omega
      rw [hdeq]
      exact SplitsInto.step hd hdsp hl hb hr hrec

/-- The splitter realizes the `re.split` decomposition. -/
theorem splitsInto_reSplitSent (cs : List Char) : SplitsInto cs (reSplitSent cs) :=
  splitsInto_reSplitFuel cs.length cs le_rfl

/-- Every fragment of a decomposition occurs verbatim (as a contiguous
substring) in the source text. -/
theorem splitsInto_mem_substring {cs : List Char} {fs : List (List Char)}
    (h : SplitsInto cs fs) : ∀ f ∈ fs, ∃ u v, u ++ f ++ v = cs := by
  induction h with
  | last _ =>
    intro f hf
    simp at hf
    subst hf
    exact ⟨[], [], by simp⟩
  | @step f d r fs2 hd hsp hl hb hr htail ih =>
    intro g hg
    rcases List.mem_cons.mp hg with hg | hg
    · subst hg
      exact ⟨[], d ++ r, by simp⟩
    · obtain ⟨u, v, huv⟩ := ih g hg
      exact ⟨f ++ d ++ u, v, by rw [← huv]; simp⟩

/-- Stripping yields a contiguous substring of the input. -/
theorem pyStripChars_substring (l : List Char) : ∃ u v, u ++ pyStripChars l ++ v = l := by
  obtain ⟨u, hu⟩ := List.dropWhile_suffix (l := l) isPySpace
  obtain ⟨w, hw⟩ := List.dropWhile_suffix (l := (l.dropWhile isPySpace).reverse) isPySpace
  refine ⟨u, w.reverse, ?_⟩
  calc u ++ pyStripChars l ++ w.reverse
      = u ++ (((l.dropWhile isPySpace).reverse.dropWhile isPySpace).reverse ++ w.reverse) := by
        rw [pyStripChars]; simp
    _ = u ++ (w ++ (l.dropWhile isPySpace).reverse.dropWhile isPySpace).reverse := by
        rw [List.reverse_append]
    _ = u ++ (l.dropWhile isPySpace).reverse.reverse := by rw [hw]
    _ = u ++ l.dropWhile isPySpace := by rw [List.reverse_reverse]
    _ = l := hu

/-- The last character of a stripped string is not whitespace. -/
theorem stripChars_getLast_not {l : List Char} {c : Char}
    (h : (pyStripChars l).getLast? = some c) : isPySpace c = false := by
  rw [pyStripChars, List.getLast?_reverse] at h
  exact dropWhile_head_not isPySpace _ h

/-- The first character of a stripped string is not whitespace. -/
theorem stripChars_head_not {l : List Char} {c : Char}
    (h : (pyStripChars l).head? = some c) : isPySpace c = false := by
  rw [pyStripChars, List.head?_reverse] at h
  have hne : (l.dropWhile isPySpace).reverse.dropWhile isPySpace ≠ [] := by
    intro hnil
    rw [hnil] at h
    simp at h
  obtain ⟨w, hw⟩ := List.dropWhile_suffix (l := (l.dropWhile isPySpace).reverse) isPySpace
  rw [← List.getLast?_append_of_ne_nil w hne, hw, List.getLast?_reverse] at h
  exact dropWhile_head_not isPySpace _ h

/-- `dropWhile` is the identity when the head fails the predicate. -/
theorem dropWhile_eq_self_of_head {p : Char → Bool} {l : List Char}
    (h : ∀ c, l.head? = some c → p c = false) : l.dropWhile p = l := by
  cases l with
  | nil => rfl
  | cons a as =>
    have := h a rfl
    exact List.dropWhile_cons_of_neg (by rw [this]; exact Bool.false_ne_true)

/-- Python's `strip` is idempotent. -/
theorem pyStripChars_idem (l : List Char) : pyStripChars (pyStripChars l) = pyStripChars l := by
  have h1 : (pyStripChars l).dropWhile isPySpace = pyStripChars l :=
    dropWhile_eq_self_of_head (fun c hc => stripChars_head_not hc)
  have h2 : (pyStripChars l).reverse.dropWhile isPySpace = (pyStripChars l).reverse :=
    dropWhile_eq_self_of_head (fun c hc => by
      rw [List.head?_reverse] at hc
      exact stripChars_getLast_not hc)
  show ((((pyStripChars l).dropWhile isPySpace).reverse.dropWhile isPySpace)).reverse =
    pyStripChars l
  rw [h1, h2, List.reverse_reverse]

/-- Stripping an all-whitespace string yields the empty string. -/
theorem pyStripChars_all_space {l : List Char} (h : ∀ c ∈ l, isPySpace c = true) :
    pyStripChars l = [] := by
  have h1 : l.dropWhile isPySpace = [] := List.dropWhile_eq_nil_iff.mpr h
  rw [pyStripChars, h1]
  rfl

/-- The splitter yields no sentence on the empty string. -/
theorem splitSentences_nil {t : String} (h : t.data = []) : splitSentences t = [] := by
  unfold splitSentences splitSentencesChars reSplitSent
  rw [h]
  rfl

/-- Every sentence produced by the splitter is non-empty, already stripped,
and a contiguous substring of the input. -/
theorem mem_splitSentences {s t : String} (h : t ∈ splitSentences s) :
    t ≠ "" ∧ pyStripChars t.data = t.data ∧ ∃ u v, u ++ t.data ++ v = s.data := by
  unfold splitSentences splitSentencesChars at h
  obtain ⟨l, hl, rfl⟩ := List.mem_map.mp h
  obtain ⟨hl1, hl2⟩ := List.mem_filter.mp hl
  obtain ⟨f, hf, rfl⟩ := List.mem_map.mp hl1
  refine ⟨?_, pyStripChars_idem f, ?_⟩
  · intro hempty
    have hdata : pyStripChars f = [] := congrArg String.data hempty
    rw [hdata] at hl2
    simp at hl2
  · obtain ⟨u1, v1, h1⟩ := splitsInto_mem_substring (splitsInto_reSplitSent s.data) f hf
    obtain ⟨u2, v2, h2⟩ := pyStripChars_substring f
    have hcomb : u1 ++ (u2 ++ pyStripChars f ++ v2) ++ v1 = s.data := by rw [h2, h1]
    exact ⟨u1 ++ u2, v2 ++ v1, by rw [← hcomb]; simp⟩

/-- A Python slice `l[:k]` is a sublist of `l`. -/
theorem pySlice_sublist (k : Int) (l : List α) : List.Sublist (pySlice k l) l := by
  unfold pySlice
  split <;> exact List.take_sublist _ _

/-- A Python slice `l[:k]` is some `take`. -/
theorem pySlice_eq_take (k : Int) (l : List α) : ∃ m, pySlice k l = l.take m := by
  unfold pySlice
  split
  · exact ⟨k.toNat, rfl⟩
  · exact ⟨((l.length : Int) + k).toNat, rfl⟩

/-- Length of a Python slice `l[:k]`. -/
theorem pySlice_length (k : Int) (l : List α) :
    (pySlice k l).length =
      min (if 0 ≤ k then k.toNat else ((l.length : Int) + k).toNat) l.length := by
  by_cases h : 0 ≤ k <;> simp [pySlice, h, List.length_take]

/-- Counting the sentences whose index falls in a duplicate-free, in-range
index set recovers the size of that set. -/
theorem length_filter_enum_keep (sentences : List String) (keep : List Nat)
    (hnd : keep.Nodup) (hlt : ∀ i ∈ keep, i < sentences.length) :
    ((sentences.enum.filter (fun p => keep.contains p.1)).map Prod.snd).length =
      keep.length := by
  rw [List.length_map, ← List.countP_eq_length_filter]
  have h1 : sentences.enum.countP (fun p => keep.contains p.1)
      = (sentences.enum.map Prod.fst).countP (fun i => keep.contains i) := by
    rw [List.countP_map]
    rfl
  rw [h1, List.enum_map_fst, List.countP_eq_length_filter]
  have hperm : List.Perm
      ((List.range sentences.length).filter (fun i => keep.contains i)) keep := by
    apply List.perm_of_nodup_nodup_toFinset_eq
      ((List.nodup_range sentences.length).filter _) hnd
    ext a
    simp only [List.mem_toFinset, List.mem_filter, List.mem_range]
    constructor
    · rintro ⟨_, hc⟩
      exact List.elem_iff.mp hc
    · intro ha
      exact ⟨hlt a ha, List.elem_iff.mpr ha⟩
  exact hperm.length_eq

/-- The top-`k` selection keeps exactly as many sentences as the slice of
the argsort has indices. -/
theorem selectTopK_length (B : TfidfBackend) (sentences : List String) (scores : List ℚ)
    (k : Int) (hperm : List.Perm (B.argsortDesc scores) (List.range scores.length))
    (hlen : scores.length = sentences.length) :
    (selectTopK B sentences scores k).length =
      (pySlice k (B.argsortDesc scores)).length := by
  unfold selectTopK
  apply length_filter_enum_keep
  · exact (pySlice_sublist _ _).nodup (hperm.nodup_iff.mpr (List.nodup_range _))
  · intro i hi
    have h1 : i ∈ B.argsortDesc scores := (pySlice_sublist _ _).subset hi
    have h2 : i ∈ List.range scores.length := hperm.mem_iff.mp h1
    rw [← hlen]
    exact List.mem_range.mp h2

/-- The top-`k` selection preserves the original sentence order: it is a
sublist of the sentence sequence. -/
theorem selectTopK_sublist (B : TfidfBackend) (sentences : List String) (scores : List ℚ)
    (k : Int) : List.Sublist (selectTopK B sentences scores k) sentences := by
  unfold selectTopK
  have h1 := (List.filter_sublist (p := fun p => (pySlice k (B.argsortDesc scores)).contains p.1)
    sentences.enum).map Prod.snd
  rwa [List.enum_map_snd] at h1

/-- Indices kept by the slice of a descending argsort dominate in score
every in-range index left out. -/
theorem argsort_take_dominates (B : TfidfBackend) (scores : List ℚ) (k : Int)
    (hperm : List.Perm (B.argsortDesc scores) (List.range scores.length))
    (hsort : (B.argsortDesc scores).Pairwise (fun i j => scores.getD j 0 ≤ scores.getD i 0)) :
    ∀ i ∈ pySlice k (B.argsortDesc scores), ∀ j, j < scores.length →
      j ∉ pySlice k (B.argsortDesc scores) → scores.getD j 0 ≤ scores.getD i 0 := by
  obtain ⟨m, hm⟩ := pySlice_eq_take k (B.argsortDesc scores)
  rw [hm]
  intro i hi j hj hnj
  have hjmem : j ∈ B.argsortDesc scores := hperm.mem_iff.mpr (List.mem_range.mpr hj)
  rw [← List.take_append_drop m (B.argsortDesc scores)] at hjmem
  have hjd : j ∈ (B.argsortDesc scores).drop m := by
    rcases List.mem_append.mp hjmem with h | h
    · exact absurd h hnj
    · exact h
  have hpair := hsort
  rw [← List.take_append_drop m (B.argsortDesc scores)] at hpair
  exact (List.pairwise_append.mp hpair).2.2 i hi j hjd

/-- The stable descending argsort is a permutation of the index range. -/
theorem stableArgsortDesc_perm (v : List ℚ) :
    List.Perm (stableArgsortDesc v) (List.range v.length) := by
  unfold stableArgsortDesc
  have h := (List.perm_insertionSort (fun a b : Nat × ℚ => b.2 ≤ a.2) v.enum).map Prod.fst
  rwa [List.enum_map_fst] at h

/-- The stable descending argsort lists indices of non-increasing score. -/
theorem stableArgsortDesc_sorted (v : List ℚ) :
    (stableArgsortDesc v).Pairwise (fun i j => v.getD j 0 ≤ v.getD i 0) := by
  haveI ht : IsTotal (Nat × ℚ) (fun a b : Nat × ℚ => b.2 ≤ a.2) :=
    ⟨fun a b => le_total b.2 a.2⟩
  haveI htr : IsTrans (Nat × ℚ) (fun a b : Nat × ℚ => b.2 ≤ a.2) :=
    ⟨fun _ _ _ h1 h2 => le_trans h2 h1⟩
  have hs : (List.insertionSort (fun a b : Nat × ℚ => b.2 ≤ a.2) v.enum).Pairwise
      (fun a b : Nat × ℚ => b.2 ≤ a.2) :=
    List.sorted_insertionSort _ v.enum
  have hmem : ∀ q ∈ List.insertionSort (fun a b : Nat × ℚ => b.2 ≤ a.2) v.enum,
      v.getD q.1 0 = q.2 := by
    intro q hq
    have hq2 : q ∈ v.enum := (List.perm_insertionSort _ v.enum).mem_iff.mp hq
    have hget : v.get? q.1 = some q.2 := by
      rw [List.get?_eq_getElem?]
      exact List.mem_enum_iff_getElem?.mp hq2
    rw [List.getD_eq_getElem?_getD, ← List.get?_eq_getElem?, hget]
    rfl
  have hp : (List.insertionSort (fun a b : Nat × ℚ => b.2 ≤ a.2) v.enum).Pairwise
      (fun a b : Nat × ℚ => v.getD b.1 0 ≤ v.getD a.1 0) :=
    List.Pairwise.imp_of_mem
      (fun ha hb hr => by rw [hmem _ ha, hmem _ hb]; exact hr) hs
  exact hp.map Prod.fst (fun a b h => h)

/-- The concrete `sampleBackend` satisfies the documented library contract. -/
theorem goodSampleBackend : GoodBackend sampleBackend := by
  refine ⟨?_, ?_, ?_, ?_⟩
  · intro b docs h
    simp [sampleBackend, h]
  · intro b docs h
    refine ⟨docs.map (fun _ => (1 : ℚ)), ?_, by simp⟩
    simp [sampleBackend, h]
  · intro v
    exact stableArgsortDesc_perm v
  · intro v
    exact stableArgsortDesc_sorted v

/-- Empty branch: blank input short-circuits to the empty list. -/
theorem top_tfidf_empty (B : TfidfBackend) (text : String) (k : Int)
    (h : (pyStrip text).data.isEmpty = true) :
    top_sentences_tfidf B text k = .ok [] := by
  unfold top_sentences_tfidf
  simp [h]

/-- Unranked branch: at most `k` sentences are returned as they are. -/
theorem top_tfidf_all (B : TfidfBackend) (text : String) (k : Int)
    (hle : ((splitSentences (pyStrip text)).length : Int) ≤ k) :
    top_sentences_tfidf B text k = .ok (splitSentences (pyStrip text)) := by
  unfold top_sentences_tfidf
  cases he : (pyStrip text).data.isEmpty with
  | true =>
    simp only [he, if_true]
    rw [splitSentences_nil (List.isEmpty_iff.mp he)]
  | false => simp [he, hle]

/-- First-pass branch: scoring with stop words succeeded. -/
theorem top_tfidf_score_ok_first {B : TfidfBackend} {text : String} {k : Int} {v : List ℚ}
    (hne : (pyStrip text).data.isEmpty = false)
    (hgt : ¬ ((splitSentences (pyStrip text)).length : Int) ≤ k)
    (hs : B.score true (splitSentences (pyStrip text)) = .ok v) :
    top_sentences_tfidf B text k =
      .ok (selectTopK B (splitSentences (pyStrip text)) v k) := by
  unfold top_sentences_tfidf
  simp [hne, hgt, hs]

/-- Retry branch: the empty-vocabulary error is caught and the second pass
succeeded. -/
theorem top_tfidf_retry_ok {B : TfidfBackend} {text : String} {k : Int} {e : String}
    {v : List ℚ}
    (hne : (pyStrip text).data.isEmpty = false)
    (hgt : ¬ ((splitSentences (pyStrip text)).length : Int) ≤ k)
    (hs : B.score true (splitSentences (pyStrip text)) = .error e)
    (hc : strContains e "empty vocabulary" = true)
    (hs2 : B.score false (splitSentences (pyStrip text)) = .ok v) :
    top_sentences_tfidf B text k =
      .ok (selectTopK B (splitSentences (pyStrip text)) v k) := by
  unfold top_sentences_tfidf
  simp [hne, hgt, hs, hc, hs2]

/-- Propagation branch: a first-pass error whose message does not contain
`"empty vocabulary"` is re-raised unchanged. -/
theorem top_tfidf_first_error_propagates {B : TfidfBackend} {text : String} {k : Int}
    {e : String}
    (hne : (pyStrip text).data.isEmpty = false)
    (hgt : ¬ ((splitSentences (pyStrip text)).length : Int) ≤ k)
    (hs : B.score true (splitSentences (pyStrip text)) = .error e)
    (hc : strContains e "empty vocabulary" = false) :
    top_sentences_tfidf B text k = .error e := by
  unfold top_sentences_tfidf
  simp [hne, hgt, hs, hc]

/-- Propagation branch: an error raised by the stop-word-free retry is not
caught. -/
theorem top_tfidf_second_error_propagates {B : TfidfBackend} {text : String} {k : Int}
    {e e2 : String}
    (hne : (pyStrip text).data.isEmpty = false)
    (hgt : ¬ ((splitSentences (pyStrip text)).length : Int) ≤ k)
    (hs : B.score true (splitSentences (pyStrip text)) = .error e)
    (hc : strContains e "empty vocabulary" = true)
    (hs2 : B.score false (splitSentences (pyStrip text)) = .error e2) :
    top_sentences_tfidf B text k = .error e2 := by
  unfold top_sentences_tfidf
  simp [hne, hgt, hs, hc, hs2]

/-- Splitting produced a sentence, so the stripped text was not blank. -/
theorem strip_not_empty_of_sentences {text : String}
    (h : splitSentences (pyStrip text) ≠ []) :
    (pyStrip text).data.isEmpty = false := by
  cases he : (pyStrip text).data.isEmpty with
  | false => rfl
  | true => exact absurd (splitSentences_nil (List.isEmpty_iff.mp he)) h

/-- The empty-vocabulary message contains the substring the handler tests. -/
theorem empty_vocab_msg_contains :
    strContains EMPTY_VOCAB_MSG "empty vocabulary" = true := by decide

/-- With a contract-abiding backend and a non-empty stop-word-free
vocabulary, scoring goes through (directly or via the retry) and the result
is the top-`k` selection over a score vector of the right length. -/
theorem top_tfidf_ok_of_good {B : TfidfBackend} (hB : GoodBackend B) (text : String)
    (k : Int)
    (hne : (pyStrip text).data.isEmpty = false)
    (hgt : ¬ ((splitSentences (pyStrip text)).length : Int) ≤ k)
    (hv : vocabularyEmpty false (splitSentences (pyStrip text)) = false) :
    ∃ scores, scores.length = (splitSentences (pyStrip text)).length ∧
      top_sentences_tfidf B text k =
        .ok (selectTopK B (splitSentences (pyStrip text)) scores k) := by
  cases h1 : vocabularyEmpty true (splitSentences (pyStrip text)) with
  | false =>
    obtain ⟨v, hok, hlen⟩ := hB.score_ok true _ h1
    exact ⟨v, hlen, top_tfidf_score_ok_first hne hgt hok⟩
  | true =>
    obtain ⟨v, hok, hlen⟩ := hB.score_ok false _ hv
    exact ⟨v, hlen,
      top_tfidf_retry_ok hne hgt (hB.score_empty true _ h1) empty_vocab_msg_contains hok⟩

/-- For a kept count `0 ≤ k < n`, the selection keeps exactly `k` sentences. -/
theorem selectTopK_length_of_le {B : TfidfBackend} {sentences : List String}
    {scores : List ℚ}
    (hperm : List.Perm (B.argsortDesc scores) (List.range scores.length))
    (hlen : scores.length = sentences.length) (k : Int) (hk : 0 ≤ k)
    (hkn : k < (sentences.length : Int)) :
    ((selectTopK B sentences scores k).length : Int) = k := by
  rw [selectTopK_length B sentences scores k hperm hlen, pySlice_length,
    hperm.length_eq, List.length_range, if_pos hk, hlen]
  omega

/-- For a negative `k`, the selection keeps `max (n + k) 0` sentences. -/
theorem selectTopK_length_of_neg {B : TfidfBackend} {sentences : List String}
    {scores : List ℚ}
    (hperm : List.Perm (B.argsortDesc scores) (List.range scores.length))
    (hlen : scores.length = sentences.length) (k : Int) (hk : k < 0) :
    (selectTopK B sentences scores k).length = ((sentences.length : Int) + k).toNat := by
  rw [selectTopK_length B sentences scores k hperm hlen, pySlice_length,
    hperm.length_eq, List.length_range, if_neg (by omega), hlen]
  omega

/-- C1 (amended): for every contract-abiding scoring backend, every text
whose sentences contain at least one token of two or more word characters
(so that the stop-word-free vocabulary is non-empty), and every `0 ≤ k`
smaller than the sentence count, `top_sentences_tfidf` returns exactly `k`
sentences, each a non-empty string occurring verbatim in the input text,
listed in their original relative order (a sublist of the split sequence);
in particular `k = 0` yields the empty sequence. Without the vocabulary
condition the call can instead raise (see the counterexample). -/
theorem claim_C1_top_k_structure (B : TfidfBackend) (hB : GoodBackend B)
    (text : String) (k : Int) (hk : 0 ≤ k)
    (hn : k < ((splitSentences (pyStrip text)).length : Int))
    (hv : vocabularyEmpty false (splitSentences (pyStrip text)) = false) :
    ∃ out, top_sentences_tfidf B text k = .ok out ∧
      (out.length : Int) = k ∧
      List.Sublist out (splitSentences (pyStrip text)) ∧
      ∀ s ∈ out, s ≠ "" ∧ ∃ u v, u ++ s.data ++ v = text.data := by
  have hne : (pyStrip text).data.isEmpty = false := by
    apply strip_not_empty_of_sentences
    intro hnil
    rw [hnil] at hn
    simp at hn
    omega
  have hgt : ¬ ((splitSentences (pyStrip text)).length : Int) ≤ k := by omega
  obtain ⟨scores, hlen, heq⟩ := top_tfidf_ok_of_good hB text k hne hgt hv
  refine ⟨_, heq, selectTopK_length_of_le (hB.argsort_perm scores) hlen k hk hn,
    selectTopK_sublist B _ scores k, ?_⟩
  intro t ht
  have hmem : t ∈ splitSentences (pyStrip text) :=
    (selectTopK_sublist B _ scores k).subset ht
  obtain ⟨hne2, _, u, v, huv⟩ := mem_splitSentences hmem
  refine ⟨hne2, ?_⟩
  obtain ⟨u2, v2, h2⟩ := pyStripChars_substring text.data
  have h3 : u2 ++ (u ++ t.data ++ v) ++ v2 = text.data := by
    rw [huv]
    exact h2
  exact ⟨u2 ++ u, v ++ v2, by rw [← h3]; simp⟩

/-- C1 (counterexample): `"a. b. c."` splits into three sentences, and
`k = 0` meets the claim's hypotheses, but no sentence has a token of two or
more word characters, so both scoring passes raise the empty-vocabulary
error and the call raises instead of returning `0` sentences — even though
the backend abides by the library contract. -/
theorem claim_C1_counterexample :
    GoodBackend sampleBackend ∧
    (splitSentences (pyStrip "a. b. c.")).length = 3 ∧
    top_sentences_tfidf sampleBackend "a. b. c." 0 = .error EMPTY_VOCAB_MSG :=
  ⟨goodSampleBackend, by decide, by decide⟩

/-- C1 (witness): the amended claim applied at a concrete four-sentence
text with `k = 2`. -/
theorem claim_C1_witness :
    (0 : Int) ≤ 2 ∧
    (2 : Int) <
      ((splitSentences (pyStrip "Revenue grew fast. Costs fell. Margins improved. Cash was strong.")).length : Int) ∧
    vocabularyEmpty false
      (splitSentences (pyStrip "Revenue grew fast. Costs fell. Margins improved. Cash was strong.")) = false ∧
    ∃ out, top_sentences_tfidf sampleBackend
        "Revenue grew fast. Costs fell. Margins improved. Cash was strong." 2 = .ok out ∧
      (out.length : Int) = 2 ∧
      List.Sublist out
        (splitSentences (pyStrip "Revenue grew fast. Costs fell. Margins improved. Cash was strong.")) ∧
      ∀ s ∈ out, s ≠ "" ∧ ∃ u v,
        u ++ s.data ++ v =
          ("Revenue grew fast. Costs fell. Margins improved. Cash was strong." : String).data :=
  ⟨by decide, by decide, by decide,
   claim_C1_top_k_structure sampleBackend goodSampleBackend
     "Revenue grew fast. Costs fell. Margins improved. Cash was strong." 2
     (by decide) (by decide) (by decide)⟩

/-- C2: for every backend and every input whose sentence count is at most
`k`, `top_sentences_tfidf` returns exactly the full split sentence sequence
in original order; the conclusion holds for an arbitrary backend, so no
scoring or ranking is consulted. -/
theorem claim_C2_all_sentences_when_le (B : TfidfBackend) (text : String) (k : Int)
    (h : ((splitSentences (pyStrip text)).length : Int) ≤ k) :
    top_sentences_tfidf B text k = .ok (splitSentences (pyStrip text)) :=
  top_tfidf_all B text k h

/-- C2 (witness): a two-sentence text with `k = 5` returns both sentences. -/
theorem claim_C2_witness :
    ((splitSentences (pyStrip "Alpha. Beta.")).length : Int) ≤ 5 ∧
    top_sentences_tfidf sampleBackend "Alpha. Beta." 5 =
      .ok (splitSentences (pyStrip "Alpha. Beta.")) ∧
    splitSentences (pyStrip "Alpha. Beta.") = ["Alpha.", "Beta."] :=
  ⟨by decide, claim_C2_all_sentences_when_le sampleBackend "Alpha. Beta." 5 (by decide),
   by decide⟩

/-- C3 (amended): when scoring with English stop words hits the
empty-vocabulary condition but the stop-word-free vocabulary is non-empty,
`top_sentences_tfidf` retries without stop words, the condition is not
surfaced, and exactly `k` sentences are returned; when even the
stop-word-free vocabulary is empty, the retry's error does surface (see the
counterexample). -/
theorem claim_C3_retry_without_stopwords (B : TfidfBackend) (hB : GoodBackend B)
    (text : String) (k : Int) (hk : 0 ≤ k)
    (hn : k < ((splitSentences (pyStrip text)).length : Int))
    (hst : vocabularyEmpty true (splitSentences (pyStrip text)) = true)
    (hv : vocabularyEmpty false (splitSentences (pyStrip text)) = false) :
    B.score true (splitSentences (pyStrip text)) = .error EMPTY_VOCAB_MSG ∧
    ∃ out, top_sentences_tfidf B text k = .ok out ∧ (out.length : Int) = k := by
  have hne : (pyStrip text).data.isEmpty = false := by
    apply strip_not_empty_of_sentences
    intro hnil
    rw [hnil] at hn
    simp at hn
    omega
  have hgt : ¬ ((splitSentences (pyStrip text)).length : Int) ≤ k := by omega
  obtain ⟨v, hok, hlen⟩ := hB.score_ok false _ hv
  exact ⟨hB.score_empty true _ hst,
    ⟨_, top_tfidf_retry_ok hne hgt (hB.score_empty true _ hst)
        empty_vocab_msg_contains hok,
      selectTopK_length_of_le (hB.argsort_perm v) hlen k hk hn⟩⟩

/-- C3 (counterexample): for `"b. c. d. e."` with `k = 2` the sentence
count exceeds `k` and the sentences consist only of single-letter words, so
the retry also hits the empty-vocabulary condition and the error is
surfaced to the caller, contradicting "the condition is never surfaced". -/
theorem claim_C3_counterexample :
    (2 : Int) < ((splitSentences (pyStrip "b. c. d. e.")).length : Int) ∧
    top_sentences_tfidf sampleBackend "b. c. d. e." 2 = .error EMPTY_VOCAB_MSG :=
  ⟨by decide, by decide⟩

/-- C3 (witness): the spec's own example `"One. Two. Three. Four. Five."`
(every token is an English stop word) with `k = 3` does not raise and
returns exactly three sentences. -/
theorem claim_C3_witness :
    vocabularyEmpty true (splitSentences (pyStrip "One. Two. Three. Four. Five.")) = true ∧
    vocabularyEmpty false (splitSentences (pyStrip "One. Two. Three. Four. Five.")) = false ∧
    sampleBackend.score true (splitSentences (pyStrip "One. Two. Three. Four. Five.")) =
      .error EMPTY_VOCAB_MSG ∧
    ∃ out, top_sentences_tfidf sampleBackend "One. Two. Three. Four. Five." 3 = .ok out ∧
      (out.length : Int) = 3 :=
  ⟨by decide, by decide,
   (claim_C3_retry_without_stopwords sampleBackend goodSampleBackend
     "One. Two. Three. Four. Five." 3 (by decide) (by decide) (by decide) (by decide)).1,
   (claim_C3_retry_without_stopwords sampleBackend goodSampleBackend
     "One. Two. Three. Four. Five." 3 (by decide) (by decide) (by decide) (by decide)).2⟩

/-- C10 (amended): for every contract-abiding backend, every text with at
least one sentence and non-empty stop-word-free vocabulary, and every
negative `k`, `top_sentences_tfidf` does not raise and returns
`max (n + k) 0` sentences (Python negative-slice semantics), in original
order, whose kept argsort indices dominate every in-range index left out;
when the vocabulary is empty the call raises instead (see the
counterexample). -/
theorem claim_C10_negative_k (B : TfidfBackend) (hB : GoodBackend B) (text : String)
    (k : Int) (hk : k < 0) (hn : 1 ≤ (splitSentences (pyStrip text)).length)
    (hv : vocabularyEmpty false (splitSentences (pyStrip text)) = false) :
    ∃ scores out,
      scores.length = (splitSentences (pyStrip text)).length ∧
      top_sentences_tfidf B text k = .ok out ∧
      out = selectTopK B (splitSentences (pyStrip text)) scores k ∧
      out.length = (((splitSentences (pyStrip text)).length : Int) + k).toNat ∧
      List.Sublist out (splitSentences (pyStrip text)) ∧
      ∀ i ∈ pySlice k (B.argsortDesc scores), ∀ j, j < scores.length →
        j ∉ pySlice k (B.argsortDesc scores) → scores.getD j 0 ≤ scores.getD i 0 := by
  have hne : (pyStrip text).data.isEmpty = false := by
    apply strip_not_empty_of_sentences
    intro hnil
    rw [hnil] at hn
    simp at hn
  have hgt : ¬ ((splitSentences (pyStrip text)).length : Int) ≤ k := by omega
  obtain ⟨scores, hlen, heq⟩ := top_tfidf_ok_of_good hB text k hne hgt hv
  exact ⟨scores, _, hlen, heq, rfl,
    selectTopK_length_of_neg (hB.argsort_perm scores) hlen k hk,
    selectTopK_sublist B _ scores k,
    argsort_take_dominates B scores k (hB.argsort_perm scores) (hB.argsort_sorted scores)⟩

/-- C10 (counterexample): `"x. y. z."` has three sentences and `k = -1`,
yet the call raises the empty-vocabulary error (no token anywhere) instead
of returning `max (3 - 1) 0 = 2` sentences. -/
theorem claim_C10_counterexample :
    1 ≤ (splitSentences (pyStrip "x. y. z.")).length ∧
    top_sentences_tfidf sampleBackend "x. y. z." (-1) = .error EMPTY_VOCAB_MSG :=
  ⟨by decide, by decide⟩

/-- C10 (witness): a five-sentence text with `k = -2` keeps
`max (5 - 2) 0 = 3` sentences. -/
theorem claim_C10_witness :
    (-2 : Int) < 0 ∧
    1 ≤ (splitSentences (pyStrip "Alpha beta. Gamma delta. Epsilon zeta. Eta theta. Iota kappa.")).length ∧
    vocabularyEmpty false
      (splitSentences (pyStrip "Alpha beta. Gamma delta. Epsilon zeta. Eta theta. Iota kappa.")) = false ∧
    ∃ scores out,
      scores.length =
        (splitSentences (pyStrip "Alpha beta. Gamma delta. Epsilon zeta. Eta theta. Iota kappa.")).length ∧
      top_sentences_tfidf sampleBackend
        "Alpha beta. Gamma delta. Epsilon zeta. Eta theta. Iota kappa." (-2) = .ok out ∧
      out = selectTopK sampleBackend
        (splitSentences (pyStrip "Alpha beta. Gamma delta. Epsilon zeta. Eta theta. Iota kappa."))
        scores (-2) ∧
      out.length =
        (((splitSentences (pyStrip "Alpha beta. Gamma delta. Epsilon zeta. Eta theta. Iota kappa.")).length : Int) +
          (-2)).toNat ∧
      List.Sublist out
        (splitSentences (pyStrip "Alpha beta. Gamma delta. Epsilon zeta. Eta theta. Iota kappa.")) ∧
      ∀ i ∈ pySlice (-2) (sampleBackend.argsortDesc scores), ∀ j, j < scores.length →
        j ∉ pySlice (-2) (sampleBackend.argsortDesc scores) →
          scores.getD j 0 ≤ scores.getD i 0 :=
  ⟨by decide, by decide, by decide,
   claim_C10_negative_k sampleBackend goodSampleBackend
     "Alpha beta. Gamma delta. Epsilon zeta. Eta theta. Iota kappa." (-2)
     (by decide) (by decide) (by decide)⟩

/-- No element satisfies the predicate, so there is no first index. -/
theorem findFirstIdx_none {p : α → Bool} :
    ∀ {l : List α}, (∀ a ∈ l, p a = false) → findFirstIdx p l = none := by
  intro l
  induction l with
  | nil => intro _; rfl
  | cons a as ih =>
    intro h
    have ha := h a (by simp)
    rw [findFirstIdx, if_neg (by simp [ha]), ih (fun x hx => h x (by simp [hx]))]
    rfl

/-- The first index after a prefix without matches is the prefix length. -/
theorem findFirstIdx_append {p : α → Bool} :
    ∀ (pre : List α) (x : α) (rest : List α), (∀ a ∈ pre, p a = false) → p x = true →
      findFirstIdx p (pre ++ x :: rest) = some pre.length := by
  intro pre
  induction pre with
  | nil =>
    intro x rest _ hx
    simp [findFirstIdx, hx]
  | cons a as ih =>
    intro x rest h hx
    have ha := h a (by simp)
    rw [List.cons_append, findFirstIdx, if_neg (by simp [ha]),
      ih x rest (fun y hy => h y (by simp [hy])) hx]
    rfl

/-- `takeWhile` passes over a block that satisfies the predicate. -/
theorem takeWhile_append_all {p : α → Bool} :
    ∀ (l₁ l₂ : List α), (∀ a ∈ l₁, p a = true) →
      (l₁ ++ l₂).takeWhile p = l₁ ++ l₂.takeWhile p := by
  intro l₁
  induction l₁ with
  | nil => intro l₂ _; simp
  | cons a as ih =>
    intro l₂ h
    rw [List.cons_append, List.takeWhile_cons_of_pos (h a (by simp)),
      ih l₂ (fun x hx => h x (by simp [hx]))]
    rfl

/-- Dropping past an appended prefix and one more element. -/
theorem drop_append_cons (pre : List α) (x : α) (tail : List α) :
    (pre ++ x :: tail).drop (pre.length + 1) = tail := by
  have h : pre ++ x :: tail = (pre ++ [x]) ++ tail := by simp
  rw [h, List.drop_left' (by simp)]

/-- Collection after the first matching heading gathers exactly the
heading-free sibling block that follows it, stopping at the next heading of
any level (or at the end of the document). -/
theorem collect_after_first_heading (p : String → Bool)
    (pre mid rest : List HtmlNode) (lv : Nat) (t : String)
    (hpre : ∀ n ∈ pre, matchesHeading p n = false)
    (ht : p t = true)
    (hmid : ∀ n ∈ mid, isHeading n = false)
    (hrest : rest = [] ∨ ∃ n rest2, rest = n :: rest2 ∧ isHeading n = true) :
    collectUntilNextHeading (pre ++ HtmlNode.heading lv t :: (mid ++ rest))
        (findFirstHeading (pre ++ HtmlNode.heading lv t :: (mid ++ rest)) p) =
      normWs (String.intercalate " " (mid.map nodeText)) := by
  have hfind : findFirstHeading (pre ++ HtmlNode.heading lv t :: (mid ++ rest)) p =
      some pre.length :=
    findFirstIdx_append pre _ _ hpre (show matchesHeading p (HtmlNode.heading lv t) = true from ht)
  rw [hfind]
  show normWs (String.intercalate " "
    ((((pre ++ HtmlNode.heading lv t :: (mid ++ rest)).drop (pre.length + 1)).takeWhile
        (fun n => !isHeading n)).map nodeText)) = _
  rw [drop_append_cons]
  have htw : (mid ++ rest).takeWhile (fun n => !isHeading n) = mid := by
    rw [takeWhile_append_all mid rest (fun a ha => by simp [hmid a ha])]
    rcases hrest with h | ⟨n, rest2, hr, hn⟩
    · rw [h]
      simp
    · rw [hr, List.takeWhile_cons_of_neg (by simp [hn])]
      simp
  rw [htw]

/-- C5 (amended): `extract_section_texts` returns under `'mdna'` (resp.
`'risk'`) the collection started at the first heading containing both
`"Item 7"` and `"Management"` (resp. `"Item 1A"` and `"Risk"`,
case-insensitively); the collection gathers the whitespace-normalized text
of the siblings following that heading and stops at the next heading of ANY
level `h1`..`h6` — not only at one of the same or higher level as the spec
states (see the counterexample). -/
theorem claim_C5_collect_stops_at_any_heading :
    (∀ nodes, extract_section_texts nodes =
      (collectUntilNextHeading nodes (findFirstHeading nodes mdnaPred),
       collectUntilNextHeading nodes (findFirstHeading nodes riskPred))) ∧
    (∀ (p : String → Bool) (pre mid rest : List HtmlNode) (lv : Nat) (t : String),
      (∀ n ∈ pre, matchesHeading p n = false) → p t = true →
      (∀ n ∈ mid, isHeading n = false) →
      (rest = [] ∨ ∃ n rest2, rest = n :: rest2 ∧ isHeading n = true) →
      collectUntilNextHeading (pre ++ HtmlNode.heading lv t :: (mid ++ rest))
          (findFirstHeading (pre ++ HtmlNode.heading lv t :: (mid ++ rest)) p) =
        normWs (String.intercalate " " (mid.map nodeText))) :=
  ⟨fun _ => rfl, collect_after_first_heading⟩

/-- C5 (counterexample): in a document where the matched `h2` section
heading is followed by a paragraph, a lower-level `h3` sub-heading, more
text, and then the next `h2`, the code stops at the `h3` and returns only
`"Revenue grew."`, while collecting "until the next heading of the same or
higher level" (the spec's wording, `extractKeySameOrHigher`) would return
`"Revenue grew. Liquidity Cash is fine."`. -/
theorem claim_C5_counterexample :
    (extract_section_texts
      [.heading 2 "Item 7. Management Discussion", .textNode "Revenue grew.",
       .heading 3 "Liquidity", .textNode "Cash is fine.",
       .heading 2 "Item 8. Financial Statements"]).1 = "Revenue grew." ∧
    extractKeySameOrHigher mdnaPred
      [.heading 2 "Item 7. Management Discussion", .textNode "Revenue grew.",
       .heading 3 "Liquidity", .textNode "Cash is fine.",
       .heading 2 "Item 8. Financial Statements"] = "Revenue grew. Liquidity Cash is fine." ∧
    (extract_section_texts
      [.heading 2 "Item 7. Management Discussion", .textNode "Revenue grew.",
       .heading 3 "Liquidity", .textNode "Cash is fine.",
       .heading 2 "Item 8. Financial Statements"]).1 ≠
      extractKeySameOrHigher mdnaPred
        [.heading 2 "Item 7. Management Discussion", .textNode "Revenue grew.",
         .heading 3 "Liquidity", .textNode "Cash is fine.",
         .heading 2 "Item 8. Financial Statements"] :=
  ⟨by decide, by decide, by decide⟩

/-- C5 (witness): the amended collection law applied at a concrete
document. -/
theorem claim_C5_witness :
    collectUntilNextHeading
        ([HtmlNode.textNode "Intro"] ++ HtmlNode.heading 2 "Item 7. Management Discussion" ::
          ([HtmlNode.textNode "Revenue grew.", HtmlNode.textNode "Margins rose."] ++
            [HtmlNode.heading 2 "Item 7A. Quantitative Disclosures"]))
        (findFirstHeading
          ([HtmlNode.textNode "Intro"] ++ HtmlNode.heading 2 "Item 7. Management Discussion" ::
            ([HtmlNode.textNode "Revenue grew.", HtmlNode.textNode "Margins rose."] ++
              [HtmlNode.heading 2 "Item 7A. Quantitative Disclosures"])) mdnaPred) =
      normWs (String.intercalate " "
        ([HtmlNode.textNode "Revenue grew.", HtmlNode.textNode "Margins rose."].map nodeText)) :=
  claim_C5_collect_stops_at_any_heading.2 mdnaPred
    [HtmlNode.textNode "Intro"]
    [HtmlNode.textNode "Revenue grew.", HtmlNode.textNode "Margins rose."]
    [HtmlNode.heading 2 "Item 7A. Quantitative Disclosures"]
    2 "Item 7. Management Discussion"
    (by decide) (by decide) (by decide)
    (Or.inr ⟨HtmlNode.heading 2 "Item 7A. Quantitative Disclosures", [], rfl, rfl⟩)

/-- C7: blank (empty or whitespace-only) input makes the summarizer return
the empty sequence without raising, for any backend; and when no heading
matches a section's markers, `extract_section_texts` returns the empty
string for that section's key, on which the summarizer again returns the
empty highlight sequence — all normal, non-error outcomes. -/
theorem claim_C7_empty_inputs_ok :
    (∀ (B : TfidfBackend) (text : String) (k : Int),
        (∀ c ∈ text.data, isPySpace c = true) →
        top_sentences_tfidf B text k = .ok []) ∧
    (∀ (nodes : List HtmlNode),
        (∀ n ∈ nodes, matchesHeading mdnaPred n = false) →
        (extract_section_texts nodes).1 = "" ∧
        ∀ (B : TfidfBackend) (k : Int),
          top_sentences_tfidf B (extract_section_texts nodes).1 k = .ok []) ∧
    (∀ (nodes : List HtmlNode),
        (∀ n ∈ nodes, matchesHeading riskPred n = false) →
        (extract_section_texts nodes).2 = "" ∧
        ∀ (B : TfidfBackend) (k : Int),
          top_sentences_tfidf B (extract_section_texts nodes).2 k = .ok []) := by
  have hempty : ∀ (B : TfidfBackend) (text : String) (k : Int),
      (∀ c ∈ text.data, isPySpace c = true) → top_sentences_tfidf B text k = .ok [] := by
    intro B text k h
    apply top_tfidf_empty
    show (pyStripChars text.data).isEmpty = true
    rw [pyStripChars_all_space h]
    rfl
  refine ⟨hempty, ?_, ?_⟩
  · intro nodes h
    have he : (extract_section_texts nodes).1 = "" := by
      show collectUntilNextHeading nodes (findFirstHeading nodes mdnaPred) = ""
      rw [show findFirstHeading nodes mdnaPred = none from findFirstIdx_none h]
      rfl
    refine ⟨he, fun B k => ?_⟩
    rw [he]
    exact hempty B "" k (by intro c hc; simp at hc)
  · intro nodes h
    have he : (extract_section_texts nodes).2 = "" := by
      show collectUntilNextHeading nodes (findFirstHeading nodes riskPred) = ""
      rw [show findFirstHeading nodes riskPred = none from findFirstIdx_none h]
      rfl
    refine ⟨he, fun B k => ?_⟩
    rw [he]
    exact hempty B "" k (by intro c hc; simp at hc)

/-- C7 (witness): whitespace-only text yields no highlights, and a document
with no matching heading yields empty sections and empty highlights. -/
theorem claim_C7_witness :
    top_sentences_tfidf sampleBackend "  \t " 3 = .ok [] ∧
    (extract_section_texts [HtmlNode.textNode "hello", HtmlNode.heading 1 "Introduction"]).1 = "" ∧
    top_sentences_tfidf sampleBackend
      (extract_section_texts [HtmlNode.textNode "hello", HtmlNode.heading 1 "Introduction"]).1
      3 = .ok [] ∧
    (extract_section_texts [HtmlNode.textNode "hello", HtmlNode.heading 1 "Introduction"]).2 = "" :=
  ⟨claim_C7_empty_inputs_ok.1 sampleBackend "  \t " 3 (by decide),
   (claim_C7_empty_inputs_ok.2.1 [HtmlNode.textNode "hello", HtmlNode.heading 1 "Introduction"]
     (by decide)).1,
   (claim_C7_empty_inputs_ok.2.1 [HtmlNode.textNode "hello", HtmlNode.heading 1 "Introduction"]
     (by decide)).2 sampleBackend 3,
   (claim_C7_empty_inputs_ok.2.2 [HtmlNode.textNode "hello", HtmlNode.heading 1 "Introduction"]
     (by decide)).1⟩

/-- C6 (amended): any scoring failure other than the empty-vocabulary
condition is propagated out of `top_sentences_tfidf` (first conjunct: a
first-pass error without `"empty vocabulary"` in its message; second
conjunct: any retry error), and `render_report` installs no handler, so
such a failure aborts the whole report assembly instead of degrading to a
page without highlights (third and fourth conjuncts). -/
theorem claim_C6_scoring_failure_aborts :
    (∀ (B : TfidfBackend) (text : String) (k : Int) (e : String),
        (pyStrip text).data.isEmpty = false →
        ¬ ((splitSentences (pyStrip text)).length : Int) ≤ k →
        B.score true (splitSentences (pyStrip text)) = .error e →
        strContains e "empty vocabulary" = false →
        top_sentences_tfidf B text k = .error e) ∧
    (∀ (B : TfidfBackend) (text : String) (k : Int) (e e2 : String),
        (pyStrip text).data.isEmpty = false →
        ¬ ((splitSentences (pyStrip text)).length : Int) ≤ k →
        B.score true (splitSentences (pyStrip text)) = .error e →
        strContains e "empty vocabulary" = true →
        B.score false (splitSentences (pyStrip text)) = .error e2 →
        top_sentences_tfidf B text k = .error e2) ∧
    (∀ (B : TfidfBackend) (now ticker : String) (m : FilingMeta) (lp : String)
        (doc : List HtmlNode) (e : String),
        top_sentences_tfidf B (extract_section_texts doc).1 3 = .error e →
        render_report B now ticker (some m) lp doc = .error e) ∧
    (∀ (B : TfidfBackend) (now ticker : String) (m : FilingMeta) (lp : String)
        (doc : List HtmlNode) (e : String) (out : List String),
        top_sentences_tfidf B (extract_section_texts doc).1 3 = .ok out →
        top_sentences_tfidf B (extract_section_texts doc).2 3 = .error e →
        render_report B now ticker (some m) lp doc = .error e) := by
  refine ⟨fun B text k e h1 h2 h3 h4 => top_tfidf_first_error_propagates h1 h2 h3 h4,
    fun B text k e e2 h1 h2 h3 h4 h5 => top_tfidf_second_error_propagates h1 h2 h3 h4 h5,
    ?_, ?_⟩
  · intro B now ticker m lp doc e h
    simp only [render_report]
    rw [h]
  · intro B now ticker m lp doc e out h1 h2
    simp only [render_report]
    rw [h1, h2]

/-- C6 (counterexample): with a backend whose scoring fails with an error
that is not the empty-vocabulary condition, `render_report` on a filing
whose MD&A section has more than three sentences returns that error —
aborting the whole report — rather than producing a page that omits the
highlights. -/
theorem claim_C6_counterexample :
    strContains "array must not contain infs or NaNs" "empty vocabulary" = false ∧
    render_report badBackend "2026-02-03 04:05 UTC" "aapl"
      (some ⟨"AAPL", "0000320193", "10-K", "2025-01-31", "2024-12-28",
        "0000320193-25-000006", "aapl-20241228.htm",
        "https://www.sec.gov/Archives/edgar/data/320193/000032019325000006/index.html"⟩)
      "data/filings/aapl_10-k.htm"
      [.heading 2 "Item 7. Management Discussion",
       .textNode "Aaa bbb. Ccc ddd. Eee fff. Ggg hhh.",
       .heading 2 "Item 1A. Risk Factors", .textNode "risk text"] =
      .error "array must not contain infs or NaNs" :=
  ⟨by decide, by decide⟩

/-- C6 (witness): the propagation law applied at a concrete backend,
document and metadata record. -/
theorem claim_C6_witness :
    top_sentences_tfidf badBackend
      (extract_section_texts
        [HtmlNode.heading 1 "Item 7 Management",
         HtmlNode.textNode "Pp qq. Rr ss. Tt uu. Vv ww."]).1 3 =
      .error "array must not contain infs or NaNs" ∧
    render_report badBackend "2026-02-03 04:06 UTC" "msft"
      (some ⟨"MSFT", "0000789019", "10-Q", "", "", "", "", ""⟩) "lp"
      [HtmlNode.heading 1 "Item 7 Management",
       HtmlNode.textNode "Pp qq. Rr ss. Tt uu. Vv ww."] =
      .error "array must not contain infs or NaNs" :=
  ⟨by decide,
   claim_C6_scoring_failure_aborts.2.2.1 badBackend "2026-02-03 04:06 UTC" "msft"
     ⟨"MSFT", "0000789019", "10-Q", "", "", "", "", ""⟩ "lp"
     [HtmlNode.heading 1 "Item 7 Management",
      HtmlNode.textNode "Pp qq. Rr ss. Tt uu. Vv ww."]
     "array must not contain infs or NaNs" (by decide)⟩

/-- C8: the sentence splitter realizes the `re.split` decomposition — the
input is the fragments interleaved with maximal non-empty whitespace runs,
each run immediately preceded by `.`, `!` or `?`, with no boundary inside
any fragment (order therefore preserved); every returned sentence is
trimmed, non-empty, and a contiguous substring of the input; the returned
list is exactly the stripped fragments with empties discarded; and empty
input yields the empty sequence. -/
theorem claim_C8_splitter_spec :
    (∀ cs : List Char, SplitsInto cs (reSplitSent cs)) ∧
    (∀ (s : String), ∀ t ∈ splitSentences s,
        t ≠ "" ∧ pyStripChars t.data = t.data ∧ ∃ u v, u ++ t.data ++ v = s.data) ∧
    (∀ s : String, splitSentences s =
        (((reSplitSent s.data).map pyStripChars).filter (fun l => !l.isEmpty)).map
          (fun l => ⟨l⟩)) ∧
    splitSentences "" = [] :=
  ⟨splitsInto_reSplitSent, fun _ _ ht => mem_splitSentences ht, fun _ => rfl, rfl⟩

/-- C8 (witness): the splitter law applied at a concrete two-sentence
string. -/
theorem claim_C8_witness :
    SplitsInto ("Hi there. Bye now." : String).data
      (reSplitSent ("Hi there. Bye now." : String).data) ∧
    (("Hi there." : String) ≠ "" ∧
      pyStripChars ("Hi there." : String).data = ("Hi there." : String).data ∧
      ∃ u v, u ++ ("Hi there." : String).data ++ v = ("Hi there. Bye now." : String).data) ∧
    splitSentences "Hi there. Bye now." = ["Hi there.", "Bye now."] :=
  ⟨claim_C8_splitter_spec.1 ("Hi there. Bye now." : String).data,
   claim_C8_splitter_spec.2.1 "Hi there. Bye now." "Hi there." (by decide),
   by decide⟩

/-- C9: `render_page` always returns `None` (the page write is a side
effect only), and consequently `render_report` — although annotated
`Path | None` — returns `None` on every execution path that produces a
report. -/
theorem claim_C9_render_page_returns_none :
    (∀ (module_slug page_title body_html : String) (nav_modules : List String)
        (base_path now : String),
        (render_page module_slug page_title body_html nav_modules base_path now).2 = none) ∧
    (∀ (B : TfidfBackend) (now ticker : String) (meta : Option FilingMeta)
        (lp : String) (doc : List HtmlNode) (r : PageWrite × Option String),
        render_report B now ticker meta lp doc = .ok r → r.2 = none) := by
  refine ⟨fun _ _ _ _ _ _ => rfl, ?_⟩
  intro B now ticker meta lp doc r h
  cases meta with
  | none =>
    unfold render_report at h
    injection h with h
    rw [← h]
    rfl
  | some m =>
    simp only [render_report] at h
    cases h1 : top_sentences_tfidf B (extract_section_texts doc).1 3 with
    | error e =>
      rw [h1] at h
      injection h
    | ok out1 =>
      rw [h1] at h
      cases h2 : top_sentences_tfidf B (extract_section_texts doc).2 3 with
      | error e =>
        rw [h2] at h
        injection h
      | ok out2 =>
        rw [h2] at h
        injection h with h
        rw [← h]
        rfl

/-- C9 (witness): a concrete `render_page` call returns `None`, and a
concrete `render_report` run that produces a page returns `None`. -/
theorem claim_C9_witness :
    (render_page "testmodule" "Test Report" "<p>Hello World</p>" ["analyst", "trader"] "."
      "2026-02-03 04:05 UTC").2 = none ∧
    ∃ r, render_report sampleBackend "2026-02-03 04:05 UTC" "aapl" none "p" [] = .ok r ∧
      r.2 = none :=
  ⟨claim_C9_render_page_returns_none.1 "testmodule" "Test Report" "<p>Hello World</p>"
    ["analyst", "trader"] "." "2026-02-03 04:05 UTC",
   ⟨render_page "analyst" ("Analyst Report · " ++ pyUpper "aapl")
      ("\n          <h2>Analyst Module</h2>\n          <p>Could not find SEC filings for <strong>" ++
        pyUpper "aapl" ++ "</strong>.</p>\n        ")
      ["analyst", "trader"] "." "2026-02-03 04:05 UTC",
    rfl,
    claim_C9_render_page_returns_none.2 sampleBackend "2026-02-03 04:05 UTC" "aapl" none "p" []
      _ rfl⟩⟩

end FinOps
